import Mathlib

/-!
Verification development for the block-range transaction extractor in
src/assets/transactions.py (asset ethereum_transactions_recent).

The Python source is shallowly embedded: the environment is a partial map
from variable names to strings, the RPC provider is a record of
Except-returning operations, and the run is a pure function that returns
the list of observable side effects (RPC calls, directory creation, file
write) together with either the materialization metadata or the error that
aborted the run.
-/

namespace OnchainPipeline

/-- Value of a decimal digit character, none for a non-digit. -/
def digitVal (c : Char) : Option Nat :=
  if '0' ≤ c ∧ c ≤ '9' then some (c.toNat - '0'.toNat) else none

/-- Parses a non-empty run of decimal digits, none otherwise. -/
def parseDigits : List Char → Option Nat
  | [] => none
  | cs => cs.foldl (fun acc c => acc.bind (fun a => (digitVal c).map (fun d => 10 * a + d))) (some 0)

/-- Model of Python int(s) on a string: an optional sign followed by a
non-empty digit run (whitespace/underscore forms are out of scope).
Returns none where Python raises ValueError. -/
def parsePyInt (s : String) : Option Int :=
  match s.data with
  | '-' :: cs => (parseDigits cs).map (fun n => -(n : Int))
  | '+' :: cs => (parseDigits cs).map (fun n => (n : Int))
  | cs => (parseDigits cs).map (fun n => (n : Int))

/-- Two-digit zero padding, as in ISO-8601 date/time components. -/
def pad2 (n : Nat) : String := if n < 10 then "0" ++ toString n else toString n

/-- Converts a day count since 1970-01-01 to a (year, month, day) civil
date, the standard era-based Gregorian algorithm. -/
def civilFromDays (z0 : Nat) : Nat × Nat × Nat :=
  let z := z0 + 719468
  let era := z / 146097
  let doe := z % 146097
  let yoe := (doe - doe / 1460 + doe / 36524 - doe / 146096) / 365
  let y := yoe + era * 400
  let doy := doe - (365 * yoe + yoe / 4 - yoe / 100)
  let mp := (5 * doy + 2) / 153
  let d := doy - (153 * mp + 2) / 5 + 1
  let m := if mp < 10 then mp + 3 else mp - 9
  (if m ≤ 2 then y + 1 else y, m, d)

/-- Model of datetime.fromtimestamp(t, tz=timezone.utc).isoformat() on a
whole-second unix timestamp: an ISO-8601 UTC string with +00:00 offset. -/
def tsIso (t : Nat) : String :=
  let days := t / 86400
  let secs := t % 86400
  let c := civilFromDays days
  toString c.1 ++ "-" ++ pad2 c.2.1 ++ "-" ++ pad2 c.2.2 ++ "T" ++
    pad2 (secs / 3600) ++ ":" ++ pad2 (secs % 3600 / 60) ++ ":" ++ pad2 (secs % 60) ++ "+00:00"

/-- A transaction as returned by the provider with full_transactions=True.
The hash field holds the hex string form; maxFeePerGas and
maxPriorityFeePerGas are none exactly when the attribute is absent on the
provider object (pre-EIP-1559 transactions), matching getattr(tx, _, None). -/
structure Tx where
  hash : String
  «from» : String
  «to» : Option String
  value : Nat
  gas : Nat
  maxFeePerGas : Option Nat
  maxPriorityFeePerGas : Option Nat
  nonce : Nat
  transactionIndex : Nat
deriving DecidableEq

/-- A block as returned by w3.eth.get_block(n, full_transactions=True). -/
structure Block where
  timestamp : Nat
  transactions : List Tx
deriving DecidableEq

/-- The RPC provider surface the asset uses: eth_blockNumber and
eth_getBlockByNumber. Either call may fail with a provider error message. -/
structure Chain where
  blockNumber : Except String Nat
  getBlock : Nat → Except String Block

/-- The process environment: a partial map from variable names to values. -/
def Env : Type := String → Option String

/-- One row of the output batch, per the TransactionRecord schema. -/
structure TransactionRecord where
  block_number : Nat
  block_timestamp : String
  hash : String
  «from» : String
  «to» : Option String
  value_wei : Nat
  gas : Nat
  max_fee_per_gas : Option Nat
  max_priority_fee_per_gas : Option Nat
  nonce : Nat
  transaction_index : Nat
deriving DecidableEq

/-- Observable side effects of a run, in order of occurrence. -/
inductive Event where
  | rpcBlockNumber : Event
  | rpcGetBlock : Nat → Event
  | mkdir : String → Event
  | fileWrite : String → List TransactionRecord → Event
deriving DecidableEq

/-- The ways a run can abort: KeyError on a missing required environment
variable, ValueError on a non-integer block count, or a propagated
provider (RPC) error. -/
inductive RunError where
  | keyError : String → RunError
  | valueError : String → RunError
  | rpcError : String → RunError
deriving DecidableEq

/-- The metadata the asset reports on success. -/
structure MaterializeResult where
  blocks_scanned : Int
  latest_block : Nat
  num_transactions : Nat
  preview : List TransactionRecord
  file : String
deriving DecidableEq

instance {ε α : Type} [DecidableEq ε] [DecidableEq α] : DecidableEq (Except ε α) := fun a b =>
  match a, b with
  | Except.ok x, Except.ok y =>
    if h : x = y then isTrue (by rw [h]) else isFalse (by intro hc; cases hc; exact h rfl)
  | Except.error x, Except.error y =>
    if h : x = y then isTrue (by rw [h]) else isFalse (by intro hc; cases hc; exact h rfl)
  | Except.ok _, Except.error _ => isFalse (by intro hc; cases hc)
  | Except.error _, Except.ok _ => isFalse (by intro hc; cases hc)

/-- Builds the row dict appended for one transaction (the body of the
inner loop, lines 47-61 of the source). -/
def txToRecord (block_num : Nat) (ts_iso : String) (tx : Tx) : TransactionRecord :=
  { block_number := block_num
    block_timestamp := ts_iso
    hash := tx.hash
    «from» := tx.«from»
    «to» := tx.«to»
    value_wei := tx.value
    gas := tx.gas
    max_fee_per_gas := tx.maxFeePerGas
    max_priority_fee_per_gas := tx.maxPriorityFeePerGas
    nonce := tx.nonce
    transaction_index := tx.transactionIndex }

/-- The rows produced from one fetched block, in provider order. -/
def blockRows (block_num : Nat) (b : Block) : List TransactionRecord :=
  b.transactions.map (txToRecord block_num (tsIso b.timestamp))

/-- start_block = max(0, latest_block - n_blocks + 1): Int.toNat clamps a
negative value to 0, matching max(0, _). -/
def startBlock (latest : Nat) (n : Int) : Nat := ((latest : Int) - n + 1).toNat

/-- The block numbers visited by range(start_block, latest_block + 1). -/
def blockRange (latest : Nat) (n : Int) : List Nat :=
  List.range' (startBlock latest n) (latest + 1 - startBlock latest n)

/-- The per-block fetch loop: emits one rpcGetBlock event per attempted
fetch and accumulates rows, aborting on the first provider error. -/
def runLoop (chain : Chain) : List Nat → List Event × Except String (List TransactionRecord)
  | [] => ([], Except.ok [])
  | b :: rest =>
    match chain.getBlock b with
    | Except.error e => ([Event.rpcGetBlock b], Except.error e)
    | Except.ok blk =>
      let r := runLoop chain rest
      (Event.rpcGetBlock b :: r.1, r.2.map (fun rows => blockRows b blk ++ rows))

/-- The deterministic output path for a given latest block. -/
def outPath (latest : Nat) : String :=
  "data/ethereum/transactions/tx_recent_until_" ++ toString latest ++ ".parquet"

/-- os.getenv("ETH_TX_RECENT_BLOCKS", "10"): the raw block-count string. -/
def nBlocksStr (env : Env) : String := (env "ETH_TX_RECENT_BLOCKS").getD "10"

/-- The asset ethereum_transactions_recent: checks ETHEREUM_RPC_URL,
parses the block count, queries the chain head, fetches each block in the
range, then creates the output directory, writes the batch, and returns
the metadata. The first component is the ordered list of side effects. -/
def ethereum_transactions_recent (env : Env) (chain : Chain) :
    List Event × Except RunError MaterializeResult :=
  match env "ETHEREUM_RPC_URL" with
  | none => ([], Except.error (RunError.keyError "ETHEREUM_RPC_URL"))
  | some _ =>
    match parsePyInt (nBlocksStr env) with
    | none => ([], Except.error (RunError.valueError (nBlocksStr env)))
    | some n_blocks =>
      match chain.blockNumber with
      | Except.error e => ([Event.rpcBlockNumber], Except.error (RunError.rpcError e))
      | Except.ok latest_block =>
        let loop := runLoop chain (blockRange latest_block n_blocks)
        match loop.2 with
        | Except.error e =>
          (Event.rpcBlockNumber :: loop.1, Except.error (RunError.rpcError e))
        | Except.ok rows =>
          (Event.rpcBlockNumber :: loop.1 ++
             [Event.mkdir "data/ethereum/transactions",
              Event.fileWrite (outPath latest_block) rows],
           Except.ok
             { blocks_scanned := n_blocks
               latest_block := latest_block
               num_transactions := rows.length
               preview := rows.take 10
               file := outPath latest_block })

/-- The block number carried by an rpcGetBlock event, if any. -/
def evBlock : Event → Option Nat
  | Event.rpcGetBlock b => some b
  | _ => none

/-- The block numbers of the RPC block fetches in a trace, in order. -/
def rpcBlocksOf (evs : List Event) : List Nat := evs.filterMap evBlock

/-- The full batch of rows for a successful run over the range, in loop
order. -/
def runRows (latest : Nat) (n : Int) (blks : Nat → Block) : List TransactionRecord :=
  (blockRange latest n).flatMap (fun b => blockRows b (blks b))

/-- Effect of one event on a modelled file system (path to written rows):
only a file write changes it, overwriting whatever was at that path. -/
def applyEvent (fs : String → Option (List TransactionRecord)) :
    Event → (String → Option (List TransactionRecord))
  | Event.fileWrite p rows => fun q => if q = p then some rows else fs q
  | _ => fs

/-- Effect of a whole trace on the modelled file system. -/
def applyEvents (fs : String → Option (List TransactionRecord)) (evs : List Event) :
    String → Option (List TransactionRecord) :=
  evs.foldl applyEvent fs

/-- Extracts the reported blocks_scanned metadata from a run outcome. -/
def blocksScannedOf : Except RunError MaterializeResult → Option Int
  | Except.ok res => some res.blocks_scanned
  | Except.error _ => none

/-- A concrete environment providing only the RPC endpoint. -/
def testEnv : Env := fun k => if k = "ETHEREUM_RPC_URL" then some "http://localhost:8545" else none

/-- A concrete EIP-1559 transaction at a given index. -/
def testTx (i : Nat) : Tx :=
  { hash := "0xaa"
    «from» := "0xsender"
    «to» := some "0xrecipient"
    value := 1000
    gas := 21000
    maxFeePerGas := some 50
    maxPriorityFeePerGas := some 2
    nonce := i
    transactionIndex := i }

/-- A concrete pre-EIP-1559 transaction: both fee fields absent. -/
def legacyTx : Tx :=
  { hash := "0xbb"
    «from» := "0xsender"
    «to» := none
    value := 7
    gas := 90000
    maxFeePerGas := none
    maxPriorityFeePerGas := none
    nonce := 3
    transactionIndex := 0 }

/-- Concrete blocks: two EIP-1559 transactions in provider order. -/
def testBlocks (b : Nat) : Block :=
  { timestamp := 1700000000 + b, transactions := [testTx 0, testTx 1] }

/-- Concrete blocks mixing a legacy and an EIP-1559 transaction. -/
def mixBlocks (b : Nat) : Block :=
  { timestamp := 1700000000 + b, transactions := [legacyTx, testTx 1] }

/-- A provider whose head is block 5 and whose fetches all succeed. -/
def testChain : Chain :=
  { blockNumber := Except.ok 5, getBlock := fun b => Except.ok (testBlocks b) }

/-- A provider with mixed-type blocks, head at block 5. -/
def mixChain : Chain :=
  { blockNumber := Except.ok 5, getBlock := fun b => Except.ok (mixBlocks b) }

/-- A provider whose fetch of block 3 fails mid-range. -/
def failChain : Chain :=
  { blockNumber := Except.ok 5
    getBlock := fun b => if b = 3 then Except.error "boom" else Except.ok (testBlocks b) }

/-- An environment with no variables set at all. -/
def emptyEnv : Env := fun _ => none

/-- An environment using the variable names the spec quotes (RPC_URL and
RECENT_BLOCKS) rather than the ones the code reads. -/
def specNamesEnv : Env := fun k =>
  if k = "RPC_URL" then some "http://localhost:8545"
  else if k = "RECENT_BLOCKS" then some "3" else none

/-- An environment where the code's endpoint variable is set and the
spec-quoted RECENT_BLOCKS is also set (to 3). -/
def ignoredVarEnv : Env := fun k =>
  if k = "ETHEREUM_RPC_URL" then some "http://localhost:8545"
  else if k = "RECENT_BLOCKS" then some "3" else none

/-- An environment requesting a non-positive block count of -2. -/
def negEnv : Env := fun k =>
  if k = "ETHEREUM_RPC_URL" then some "http://localhost:8545"
  else if k = "ETH_TX_RECENT_BLOCKS" then some "-2" else none

/-- An environment requesting a block count of 3 via the code's variable. -/
def threeEnv : Env := fun k =>
  if k = "ETHEREUM_RPC_URL" then some "http://localhost:8545"
  else if k = "ETH_TX_RECENT_BLOCKS" then some "3" else none

lemma startBlock_le (latest : Nat) (n : Int) (h : 1 ≤ n) : startBlock latest n ≤ latest := by
  simp only [startBlock]
  omega

lemma blockRange_length (latest : Nat) (n : Int) (h : 1 ≤ n) :
    (blockRange latest n).length = min n.toNat (latest + 1) := by
  simp only [blockRange, List.length_range', startBlock]
  omega

lemma blockRange_head (latest : Nat) (n : Int) (h : 1 ≤ n) :
    (blockRange latest n).head? = some (startBlock latest n) := by
  have hle := startBlock_le latest n h
  simp only [blockRange]
  obtain ⟨m, hm⟩ : ∃ m, latest + 1 - startBlock latest n = m + 1 := ⟨latest - startBlock latest n, by omega⟩
  rw [hm, List.range'_succ]
  rfl

lemma blockRange_getLast (latest : Nat) (n : Int) (h : 1 ≤ n) :
    (blockRange latest n).getLast? = some latest := by
  have hle := startBlock_le latest n h
  simp only [blockRange]
  obtain ⟨m, hm⟩ : ∃ m, latest + 1 - startBlock latest n = m + 1 := ⟨latest - startBlock latest n, by omega⟩
  rw [hm]
  have hc := @List.range'_concat 1 (startBlock latest n) m
  simp only [one_mul] at hc
  rw [hc, List.getLast?_concat]
  have : startBlock latest n + m = latest := by omega
  rw [this]

lemma blockRange_pairwise (latest : Nat) (n : Int) :
    (blockRange latest n).Pairwise (· < ·) := by
  rw [List.pairwise_iff_get]
  intro i j hij
  have hi := i.isLt
  have hj := j.isLt
  simp only [blockRange, List.length_range'] at hi hj
  simp only [blockRange, List.get_eq_getElem, List.getElem_range', one_mul]
  omega

lemma mem_blockRange (latest : Nat) (n : Int) (b : Nat) (hb : b ∈ blockRange latest n) :
    startBlock latest n ≤ b ∧ b ≤ latest := by
  rw [blockRange, List.mem_range'_1] at hb
  omega

lemma blockRange_eq_nil (latest : Nat) (n : Int) (h : n ≤ 0) :
    blockRange latest n = [] := by
  have : latest + 1 - startBlock latest n = 0 := by
    simp only [startBlock]; omega
  simp [blockRange, this]

lemma runLoop_ok (chain : Chain) (blks : Nat → Block) :
    ∀ bs : List Nat, (∀ b ∈ bs, chain.getBlock b = Except.ok (blks b)) →
      runLoop chain bs = (bs.map Event.rpcGetBlock,
        Except.ok (bs.flatMap (fun b => blockRows b (blks b)))) := by
  intro bs
  induction bs with
  | nil => intro _; simp [runLoop]
  | cons b rest ih =>
    intro hok
    have hb : chain.getBlock b = Except.ok (blks b) := hok b (List.mem_cons_self b rest)
    have hrest : ∀ x ∈ rest, chain.getBlock x = Except.ok (blks x) :=
      fun x hx => hok x (List.mem_cons_of_mem b hx)
    simp [runLoop, hb, ih hrest, Except.map]

lemma runLoop_error (chain : Chain) (blks : Nat → Block) (bad : Nat) (e : String) :
    ∀ pre : List Nat, ∀ post : List Nat,
      (∀ b ∈ pre, chain.getBlock b = Except.ok (blks b)) →
      chain.getBlock bad = Except.error e →
      runLoop chain (pre ++ bad :: post) =
        (pre.map Event.rpcGetBlock ++ [Event.rpcGetBlock bad], Except.error e) := by
  intro pre
  induction pre with
  | nil =>
    intro post _ hbad
    simp [runLoop, hbad]
  | cons b rest ih =>
    intro post hok hbad
    have hb : chain.getBlock b = Except.ok (blks b) := hok b (List.mem_cons_self b rest)
    have hrest : ∀ x ∈ rest, chain.getBlock x = Except.ok (blks x) :=
      fun x hx => hok x (List.mem_cons_of_mem b hx)
    simp [runLoop, hb, ih post hrest hbad, Except.map]

lemma run_success (env : Env) (chain : Chain) (u : String) (n : Int) (latest : Nat)
    (blks : Nat → Block)
    (hurl : env "ETHEREUM_RPC_URL" = some u)
    (hn : parsePyInt (nBlocksStr env) = some n)
    (hlat : chain.blockNumber = Except.ok latest)
    (hok : ∀ b ∈ blockRange latest n, chain.getBlock b = Except.ok (blks b)) :
    ethereum_transactions_recent env chain =
      (Event.rpcBlockNumber :: ((blockRange latest n).map Event.rpcGetBlock ++
         [Event.mkdir "data/ethereum/transactions",
          Event.fileWrite (outPath latest) (runRows latest n blks)]),
       Except.ok
         { blocks_scanned := n
           latest_block := latest
           num_transactions := (runRows latest n blks).length
           preview := (runRows latest n blks).take 10
           file := outPath latest }) := by
  simp only [ethereum_transactions_recent, hurl, hn, hlat, runLoop_ok chain blks _ hok, runRows,
    List.cons_append]

lemma mem_blockRows (b : Nat) (blk : Block) (r : TransactionRecord)
    (hr : r ∈ blockRows b blk) :
    r.block_number = b ∧ r.block_timestamp = tsIso blk.timestamp ∧
      ∃ tx ∈ blk.transactions, r = txToRecord b (tsIso blk.timestamp) tx := by
  rw [blockRows, List.mem_map] at hr
  obtain ⟨tx, htx, rfl⟩ := hr
  exact ⟨rfl, rfl, tx, htx, rfl⟩

lemma mem_runRows (latest : Nat) (n : Int) (blks : Nat → Block) (r : TransactionRecord) :
    r ∈ runRows latest n blks ↔ ∃ b ∈ blockRange latest n, r ∈ blockRows b (blks b) := by
  rw [runRows, List.mem_flatMap]

lemma runRows_pairwise {R : TransactionRecord → TransactionRecord → Prop}
    (latest : Nat) (n : Int) (blks : Nat → Block)
    (hin : ∀ b ∈ blockRange latest n, (blockRows b (blks b)).Pairwise R)
    (hout : ∀ a ∈ blockRange latest n, ∀ b ∈ blockRange latest n, a < b →
      ∀ x ∈ blockRows a (blks a), ∀ y ∈ blockRows b (blks b), R x y) :
    (runRows latest n blks).Pairwise R := by
  rw [runRows, List.flatMap_def, List.pairwise_flatten]
  refine ⟨?_, ?_⟩
  · intro l hl
    rw [List.mem_map] at hl
    obtain ⟨b, hb, rfl⟩ := hl
    exact hin b hb
  · rw [List.pairwise_map]
    have hp := blockRange_pairwise latest n
    exact hp.imp_of_mem (fun ha hb hab => hout _ ha _ hb hab)

lemma runRows_block_le (latest : Nat) (n : Int) (blks : Nat → Block) :
    (runRows latest n blks).Pairwise
      (fun r s => r.block_number ≤ s.block_number) := by
  refine runRows_pairwise latest n blks ?_ ?_
  · intro b _
    refine List.pairwise_of_forall_mem_list ?_
    intro x hx y hy
    rw [(mem_blockRows b (blks b) x hx).1, (mem_blockRows b (blks b) y hy).1]
  · intro a _ b _ hab x hx y hy
    rw [(mem_blockRows a (blks a) x hx).1, (mem_blockRows b (blks b) y hy).1]
    omega

lemma runRows_lex (latest : Nat) (n : Int) (blks : Nat → Block)
    (hidx : ∀ b ∈ blockRange latest n,
      ((blks b).transactions.map (fun t => t.transactionIndex)).Pairwise (· < ·)) :
    (runRows latest n blks).Pairwise
      (fun r s => r.block_number < s.block_number ∨
        (r.block_number = s.block_number ∧ r.transaction_index < s.transaction_index)) := by
  refine runRows_pairwise latest n blks ?_ ?_
  · intro b hb
    have h1 := (List.pairwise_map).mp (hidx b hb)
    rw [blockRows, List.pairwise_map]
    exact h1.imp (fun h => Or.inr ⟨rfl, h⟩)
  · intro a _ b _ hab x hx y hy
    rw [blockRows, List.mem_map] at hx hy
    obtain ⟨tx, _, rfl⟩ := hx
    obtain ⟨ty, _, rfl⟩ := hy
    exact Or.inl hab

lemma run_midrange_error (env : Env) (chain : Chain) (u : String) (n : Int) (latest : Nat)
    (blks : Nat → Block) (pre post : List Nat) (bad : Nat) (e : String)
    (hurl : env "ETHEREUM_RPC_URL" = some u)
    (hn : parsePyInt (nBlocksStr env) = some n)
    (hlat : chain.blockNumber = Except.ok latest)
    (hsplit : blockRange latest n = pre ++ bad :: post)
    (hpre : ∀ b ∈ pre, chain.getBlock b = Except.ok (blks b))
    (hbad : chain.getBlock bad = Except.error e) :
    ethereum_transactions_recent env chain =
      (Event.rpcBlockNumber :: (pre.map Event.rpcGetBlock ++ [Event.rpcGetBlock bad]),
       Except.error (RunError.rpcError e)) := by
  simp only [ethereum_transactions_recent, hurl, hn, hlat, hsplit,
    runLoop_error chain blks bad e pre post hpre hbad]

lemma runRows_length (latest : Nat) (n : Int) (blks : Nat → Block) :
    (runRows latest n blks).length =
      ((blockRange latest n).map (fun b => (blks b).transactions.length)).sum := by
  rw [runRows, List.length_flatMap]
  congr 1
  simp [Function.comp, blockRows]

lemma foldl_applyEvent_rpc :
    ∀ (bs : List Nat) (fs : String → Option (List TransactionRecord)),
      List.foldl applyEvent fs (bs.map Event.rpcGetBlock) = fs := by
  intro bs
  induction bs with
  | nil => intro fs; rfl
  | cons b rest ih => intro fs; simp only [List.map_cons, List.foldl_cons]; exact ih fs

lemma applyEvents_trace (fs : String → Option (List TransactionRecord))
    (bs : List Nat) (d p : String) (rows : List TransactionRecord) :
    applyEvents fs (Event.rpcBlockNumber ::
        (bs.map Event.rpcGetBlock ++ [Event.mkdir d, Event.fileWrite p rows])) =
      fun q => if q = p then some rows else fs q := by
  simp only [applyEvents, List.foldl_cons, List.foldl_append]
  rw [show applyEvent fs Event.rpcBlockNumber = fs from rfl, foldl_applyEvent_rpc]
  rfl

lemma filterMap_evBlock_map (bs : List Nat) :
    List.filterMap (evBlock ∘ Event.rpcGetBlock) bs = bs := by
  induction bs with
  | nil => rfl
  | cons b rest ih =>
    rw [List.filterMap_cons]
    simp only [Function.comp]
    rw [show evBlock (Event.rpcGetBlock b) = some b from rfl, ih]

lemma applyEvents_append (fs : String → Option (List TransactionRecord))
    (t1 t2 : List Event) :
    applyEvents fs (t1 ++ t2) = applyEvents (applyEvents fs t1) t2 :=
  List.foldl_append ..

lemma applyEvents_trace_twice (fs : String → Option (List TransactionRecord))
    (bs : List Nat) (d p : String) (rows : List TransactionRecord) :
    applyEvents fs ((Event.rpcBlockNumber ::
        (bs.map Event.rpcGetBlock ++ [Event.mkdir d, Event.fileWrite p rows])) ++
      (Event.rpcBlockNumber ::
        (bs.map Event.rpcGetBlock ++ [Event.mkdir d, Event.fileWrite p rows]))) =
      applyEvents fs (Event.rpcBlockNumber ::
        (bs.map Event.rpcGetBlock ++ [Event.mkdir d, Event.fileWrite p rows])) := by
  rw [applyEvents_append, applyEvents_trace fs, applyEvents_trace]
  funext q
  by_cases hq : q = p <;> simp [hq]

/-- Claim C1: for every block count N greater than or equal to 1 and latest block
number L, the extractor fetches exactly min(N, L+1) blocks, starting at block
max(0, L-N+1) and ending at L, iterating in ascending order. The fetched blocks
are read off the run's trace of rpcGetBlock events. -/
theorem claim_C1 (env : Env) (chain : Chain) (u : String) (n : Int) (latest : Nat)
    (blks : Nat → Block)
    (hurl : env "ETHEREUM_RPC_URL" = some u)
    (hn : parsePyInt (nBlocksStr env) = some n)
    (hpos : 1 ≤ n)
    (hlat : chain.blockNumber = Except.ok latest)
    (hok : ∀ b ∈ blockRange latest n, chain.getBlock b = Except.ok (blks b)) :
    rpcBlocksOf (ethereum_transactions_recent env chain).1 = blockRange latest n ∧
    (blockRange latest n).length = min n.toNat (latest + 1) ∧
    (blockRange latest n).head? = some (startBlock latest n) ∧
    (startBlock latest n : Int) = max ((latest : Int) - n + 1) 0 ∧
    (blockRange latest n).getLast? = some latest ∧
    (blockRange latest n).Pairwise (· < ·) := by
  refine ⟨?_, blockRange_length latest n hpos, blockRange_head latest n hpos, ?_,
    blockRange_getLast latest n hpos, blockRange_pairwise latest n⟩
  · rw [run_success env chain u n latest blks hurl hn hlat hok]
    simp only [rpcBlocksOf, List.filterMap_cons, List.filterMap_append, List.filterMap_map, evBlock]
    simp [filterMap_evBlock_map]
  · simp only [startBlock]
    omega

/-- Witness for claim C1 at a concrete environment and provider: the default
block count 10 against a chain whose head is block 5. -/
theorem claim_C1_witness :
    rpcBlocksOf (ethereum_transactions_recent testEnv testChain).1 = blockRange 5 10 ∧
    (blockRange 5 10).length = min (Int.toNat 10) (5 + 1) ∧
    (blockRange 5 10).head? = some (startBlock 5 10) ∧
    (startBlock 5 10 : Int) = max (((5 : Nat) : Int) - 10 + 1) 0 ∧
    (blockRange 5 10).getLast? = some 5 ∧
    (blockRange 5 10).Pairwise (· < ·) :=
  claim_C1 testEnv testChain "http://localhost:8545" 10 5 testBlocks
    (by decide) (by decide) (by decide) rfl (fun b _ => rfl)

/-- Claim C2: for every run that completes, the number of emitted
TransactionRecords (the row count of the written batch, also reported as
num_transactions) equals the sum of the per-block transaction counts over all
blocks in the fetched range. -/
theorem claim_C2 (env : Env) (chain : Chain) (u : String) (n : Int) (latest : Nat)
    (blks : Nat → Block)
    (hurl : env "ETHEREUM_RPC_URL" = some u)
    (hn : parsePyInt (nBlocksStr env) = some n)
    (hlat : chain.blockNumber = Except.ok latest)
    (hok : ∀ b ∈ blockRange latest n, chain.getBlock b = Except.ok (blks b)) :
    ∃ res, (ethereum_transactions_recent env chain).2 = Except.ok res ∧
      res.num_transactions =
        ((blockRange latest n).map (fun b => (blks b).transactions.length)).sum ∧
      Event.fileWrite (outPath latest) (runRows latest n blks) ∈
        (ethereum_transactions_recent env chain).1 ∧
      (runRows latest n blks).length =
        ((blockRange latest n).map (fun b => (blks b).transactions.length)).sum := by
  rw [run_success env chain u n latest blks hurl hn hlat hok]
  exact ⟨_, rfl, runRows_length latest n blks, by simp, runRows_length latest n blks⟩

/-- Witness for claim C2: with the default block count 10 over a 6-block chain
of 2 transactions each, the written batch has 12 rows. -/
theorem claim_C2_witness :
    ∃ res, (ethereum_transactions_recent testEnv testChain).2 = Except.ok res ∧
      res.num_transactions =
        ((blockRange 5 10).map (fun b => (testBlocks b).transactions.length)).sum ∧
      Event.fileWrite (outPath 5) (runRows 5 10 testBlocks) ∈
        (ethereum_transactions_recent testEnv testChain).1 ∧
      (runRows 5 10 testBlocks).length =
        ((blockRange 5 10).map (fun b => (testBlocks b).transactions.length)).sum :=
  claim_C2 testEnv testChain "http://localhost:8545" 10 5 testBlocks
    (by decide) (by decide) rfl (fun b _ => rfl)

/-- Claim C3: for every run that completes, the emitted record sequence is the
per-block record lists concatenated in ascending block order, each block's
records kept exactly in provider-returned order with no re-sort; when each
block's provider order has strictly ascending transaction indices, the batch is
ordered block-ascending then transaction-index-ascending within a block. -/
theorem claim_C3 (env : Env) (chain : Chain) (u : String) (n : Int) (latest : Nat)
    (blks : Nat → Block)
    (hurl : env "ETHEREUM_RPC_URL" = some u)
    (hn : parsePyInt (nBlocksStr env) = some n)
    (hlat : chain.blockNumber = Except.ok latest)
    (hok : ∀ b ∈ blockRange latest n, chain.getBlock b = Except.ok (blks b))
    (hidx : ∀ b ∈ blockRange latest n,
      ((blks b).transactions.map (fun t => t.transactionIndex)).Pairwise (· < ·)) :
    Event.fileWrite (outPath latest) (runRows latest n blks) ∈
      (ethereum_transactions_recent env chain).1 ∧
    runRows latest n blks = (blockRange latest n).flatMap
      (fun b => (blks b).transactions.map (txToRecord b (tsIso ((blks b).timestamp)))) ∧
    (runRows latest n blks).Pairwise
      (fun r s => r.block_number < s.block_number ∨
        (r.block_number = s.block_number ∧ r.transaction_index < s.transaction_index)) := by
  refine ⟨?_, rfl, runRows_lex latest n blks hidx⟩
  rw [run_success env chain u n latest blks hurl hn hlat hok]
  simp

/-- Witness for claim C3 at the concrete 6-block chain with two transactions
per block at indices 0 and 1. -/
theorem claim_C3_witness :
    Event.fileWrite (outPath 5) (runRows 5 10 testBlocks) ∈
      (ethereum_transactions_recent testEnv testChain).1 ∧
    runRows 5 10 testBlocks = (blockRange 5 10).flatMap
      (fun b => (testBlocks b).transactions.map (txToRecord b (tsIso ((testBlocks b).timestamp)))) ∧
    (runRows 5 10 testBlocks).Pairwise
      (fun r s => r.block_number < s.block_number ∨
        (r.block_number = s.block_number ∧ r.transaction_index < s.transaction_index)) :=
  claim_C3 testEnv testChain "http://localhost:8545" 10 5 testBlocks
    (by decide) (by decide) rfl (fun b _ => rfl) (by decide)

/-- Claim C4: every emitted record comes from a transaction in the fetched
range; its max_fee_per_gas is null exactly when the source transaction lacks
maxFeePerGas, likewise max_priority_fee_per_gas for maxPriorityFeePerGas, and
every other schema field is copied from the transaction (with block_number and
the block's ISO timestamp attached). -/
theorem claim_C4 (env : Env) (chain : Chain) (u : String) (n : Int) (latest : Nat)
    (blks : Nat → Block)
    (hurl : env "ETHEREUM_RPC_URL" = some u)
    (hn : parsePyInt (nBlocksStr env) = some n)
    (hlat : chain.blockNumber = Except.ok latest)
    (hok : ∀ b ∈ blockRange latest n, chain.getBlock b = Except.ok (blks b)) :
    Event.fileWrite (outPath latest) (runRows latest n blks) ∈
      (ethereum_transactions_recent env chain).1 ∧
    ∀ r ∈ runRows latest n blks, ∃ b, b ∈ blockRange latest n ∧
      ∃ tx, tx ∈ (blks b).transactions ∧
        r = txToRecord b (tsIso ((blks b).timestamp)) tx ∧
        (r.max_fee_per_gas = none ↔ tx.maxFeePerGas = none) ∧
        (r.max_priority_fee_per_gas = none ↔ tx.maxPriorityFeePerGas = none) ∧
        r.max_fee_per_gas = tx.maxFeePerGas ∧
        r.max_priority_fee_per_gas = tx.maxPriorityFeePerGas ∧
        r.hash = tx.hash ∧ r.«from» = tx.«from» ∧ r.«to» = tx.«to» ∧
        r.value_wei = tx.value ∧ r.gas = tx.gas ∧ r.nonce = tx.nonce ∧
        r.transaction_index = tx.transactionIndex ∧
        r.block_number = b ∧ r.block_timestamp = tsIso ((blks b).timestamp) := by
  refine ⟨by rw [run_success env chain u n latest blks hurl hn hlat hok]; simp, ?_⟩
  intro r hr
  rw [mem_runRows] at hr
  obtain ⟨b, hb, hrb⟩ := hr
  obtain ⟨_, _, tx, htx, rfl⟩ := mem_blockRows _ _ _ hrb
  exact ⟨b, hb, tx, htx, rfl, Iff.rfl, Iff.rfl, rfl, rfl, rfl, rfl, rfl, rfl,
    rfl, rfl, rfl, rfl, rfl⟩

/-- Witness for claim C4 at a chain whose blocks mix a legacy transaction
(both EIP-1559 fields absent) with an EIP-1559 transaction. -/
theorem claim_C4_witness :
    Event.fileWrite (outPath 5) (runRows 5 10 mixBlocks) ∈
      (ethereum_transactions_recent testEnv mixChain).1 ∧
    ∀ r ∈ runRows 5 10 mixBlocks, ∃ b, b ∈ blockRange 5 10 ∧
      ∃ tx, tx ∈ (mixBlocks b).transactions ∧
        r = txToRecord b (tsIso ((mixBlocks b).timestamp)) tx ∧
        (r.max_fee_per_gas = none ↔ tx.maxFeePerGas = none) ∧
        (r.max_priority_fee_per_gas = none ↔ tx.maxPriorityFeePerGas = none) ∧
        r.max_fee_per_gas = tx.maxFeePerGas ∧
        r.max_priority_fee_per_gas = tx.maxPriorityFeePerGas ∧
        r.hash = tx.hash ∧ r.«from» = tx.«from» ∧ r.«to» = tx.«to» ∧
        r.value_wei = tx.value ∧ r.gas = tx.gas ∧ r.nonce = tx.nonce ∧
        r.transaction_index = tx.transactionIndex ∧
        r.block_number = b ∧ r.block_timestamp = tsIso ((mixBlocks b).timestamp) :=
  claim_C4 testEnv mixChain "http://localhost:8545" 10 5 mixBlocks
    (by decide) (by decide) rfl (fun b _ => rfl)

/-- Claim C5: if the fetch of a mid-range block fails, the run aborts with the
provider's error propagated unmodified, the trace stops at the failing fetch,
and no file is written and no directory created - rows already built from the
earlier blocks are not persisted. -/
theorem claim_C5 (env : Env) (chain : Chain) (u : String) (n : Int) (latest : Nat)
    (blks : Nat → Block) (pre post : List Nat) (bad : Nat) (e : String)
    (hurl : env "ETHEREUM_RPC_URL" = some u)
    (hn : parsePyInt (nBlocksStr env) = some n)
    (hlat : chain.blockNumber = Except.ok latest)
    (hsplit : blockRange latest n = pre ++ bad :: post)
    (hpre : ∀ b ∈ pre, chain.getBlock b = Except.ok (blks b))
    (hbad : chain.getBlock bad = Except.error e) :
    ethereum_transactions_recent env chain =
      (Event.rpcBlockNumber :: (pre.map Event.rpcGetBlock ++ [Event.rpcGetBlock bad]),
       Except.error (RunError.rpcError e)) ∧
    (∀ p rows, Event.fileWrite p rows ∉ (ethereum_transactions_recent env chain).1) ∧
    (∀ d, Event.mkdir d ∉ (ethereum_transactions_recent env chain).1) := by
  have h := run_midrange_error env chain u n latest blks pre post bad e hurl hn hlat hsplit
    hpre hbad
  refine ⟨h, ?_, ?_⟩ <;> rw [h] <;> simp

/-- Witness for claim C5: a chain whose fetch of block 3 fails after blocks
0, 1, 2 succeeded; the run errors with the provider message and writes
nothing. -/
theorem claim_C5_witness :
    ethereum_transactions_recent testEnv failChain =
      (Event.rpcBlockNumber ::
        ([0, 1, 2].map Event.rpcGetBlock ++ [Event.rpcGetBlock 3]),
       Except.error (RunError.rpcError "boom")) ∧
    (∀ p rows, Event.fileWrite p rows ∉ (ethereum_transactions_recent testEnv failChain).1) ∧
    (∀ d, Event.mkdir d ∉ (ethereum_transactions_recent testEnv failChain).1) :=
  claim_C5 testEnv failChain "http://localhost:8545" 10 5 testBlocks [0, 1, 2] [4, 5] 3 "boom"
    (by decide) (by decide) rfl (by decide) (by decide) (by decide)

/-- Claim C6: if ETHEREUM_RPC_URL is absent from the environment, the run
aborts with a KeyError before any side effect: the trace is empty, so no
network call is made and no file or directory is created. -/
theorem claim_C6 (env : Env) (chain : Chain)
    (hurl : env "ETHEREUM_RPC_URL" = none) :
    ethereum_transactions_recent env chain =
      ([], Except.error (RunError.keyError "ETHEREUM_RPC_URL")) := by
  simp [ethereum_transactions_recent, hurl]

/-- Witness for claim C6 at the empty environment. -/
theorem claim_C6_witness :
    ethereum_transactions_recent emptyEnv testChain =
      ([], Except.error (RunError.keyError "ETHEREUM_RPC_URL")) :=
  claim_C6 emptyEnv testChain rfl

/-- Claim C7: the output path is the deterministic function of the latest
block number alone; a second run against any provider agreeing on the head
and the fetched range produces the identical trace and result, and replaying
the trace twice over any modelled file system equals replaying it once, the
path holding exactly the batch (idempotent overwrite). -/
theorem claim_C7 (env : Env) (chain chain2 : Chain) (u : String) (n : Int) (latest : Nat)
    (blks : Nat → Block)
    (hurl : env "ETHEREUM_RPC_URL" = some u)
    (hn : parsePyInt (nBlocksStr env) = some n)
    (hlat : chain.blockNumber = Except.ok latest)
    (hok : ∀ b ∈ blockRange latest n, chain.getBlock b = Except.ok (blks b))
    (hlat2 : chain2.blockNumber = Except.ok latest)
    (hok2 : ∀ b ∈ blockRange latest n, chain2.getBlock b = Except.ok (blks b)) :
    (∃ res, (ethereum_transactions_recent env chain).2 = Except.ok res ∧
        res.file = outPath latest) ∧
    Event.fileWrite (outPath latest) (runRows latest n blks) ∈
      (ethereum_transactions_recent env chain).1 ∧
    ethereum_transactions_recent env chain2 = ethereum_transactions_recent env chain ∧
    (∀ fs, applyEvents fs ((ethereum_transactions_recent env chain).1 ++
          (ethereum_transactions_recent env chain).1) =
        applyEvents fs (ethereum_transactions_recent env chain).1 ∧
      applyEvents fs (ethereum_transactions_recent env chain).1 (outPath latest) =
        some (runRows latest n blks)) := by
  have h1 := run_success env chain u n latest blks hurl hn hlat hok
  have h2 := run_success env chain2 u n latest blks hurl hn hlat2 hok2
  rw [h1, h2]
  refine ⟨⟨_, rfl, rfl⟩, by simp, rfl, fun fs => ⟨?_, ?_⟩⟩
  · exact applyEvents_trace_twice fs (blockRange latest n) "data/ethereum/transactions"
      (outPath latest) (runRows latest n blks)
  · exact (congrFun (applyEvents_trace fs (blockRange latest n) "data/ethereum/transactions"
      (outPath latest) (runRows latest n blks)) (outPath latest)).trans (if_pos rfl)

/-- Witness for claim C7 at two identical concrete providers. -/
theorem claim_C7_witness :
    (∃ res, (ethereum_transactions_recent testEnv testChain).2 = Except.ok res ∧
        res.file = outPath 5) ∧
    Event.fileWrite (outPath 5) (runRows 5 10 testBlocks) ∈
      (ethereum_transactions_recent testEnv testChain).1 ∧
    ethereum_transactions_recent testEnv testChain = ethereum_transactions_recent testEnv testChain ∧
    (∀ fs, applyEvents fs ((ethereum_transactions_recent testEnv testChain).1 ++
          (ethereum_transactions_recent testEnv testChain).1) =
        applyEvents fs (ethereum_transactions_recent testEnv testChain).1 ∧
      applyEvents fs (ethereum_transactions_recent testEnv testChain).1 (outPath 5) =
        some (runRows 5 10 testBlocks)) :=
  claim_C7 testEnv testChain testChain "http://localhost:8545" 10 5 testBlocks
    (by decide) (by decide) rfl (fun b _ => rfl) rfl (fun b _ => rfl)

/-- Counterexample to claim C8 as stated: an environment that sets RPC_URL
(and RECENT_BLOCKS=3) but not ETHEREUM_RPC_URL still aborts with a KeyError
on ETHEREUM_RPC_URL, so RPC_URL is not the required endpoint variable; and
with ETHEREUM_RPC_URL set, setting RECENT_BLOCKS=3 is ignored: the run
reports blocks_scanned = 10 and fetches 6 blocks, not 3. -/
theorem claim_C8_counterexample :
    ethereum_transactions_recent specNamesEnv testChain =
      ([], Except.error (RunError.keyError "ETHEREUM_RPC_URL")) ∧
    blocksScannedOf (ethereum_transactions_recent ignoredVarEnv testChain).2 = some 10 ∧
    (rpcBlocksOf (ethereum_transactions_recent ignoredVarEnv testChain).1).length = 6 :=
  ⟨by decide, by decide, by decide⟩

/-- Claim C8, amended: the block count N is read from the optional
environment variable ETH_TX_RECENT_BLOCKS and defaults to 10 when that
variable is absent; the required endpoint variable is named
ETHEREUM_RPC_URL. -/
theorem claim_C8 :
    (∀ env : Env, env "ETH_TX_RECENT_BLOCKS" = none →
      parsePyInt (nBlocksStr env) = some 10) ∧
    (∀ (env : Env) (chain : Chain), env "ETHEREUM_RPC_URL" = none →
      ethereum_transactions_recent env chain =
        ([], Except.error (RunError.keyError "ETHEREUM_RPC_URL"))) ∧
    (∀ (env : Env) (chain : Chain) (u s : String) (k : Int) (latest : Nat)
        (blks : Nat → Block),
      env "ETHEREUM_RPC_URL" = some u →
      env "ETH_TX_RECENT_BLOCKS" = some s → parsePyInt s = some k →
      chain.blockNumber = Except.ok latest →
      (∀ b ∈ blockRange latest k, chain.getBlock b = Except.ok (blks b)) →
      ∃ res, (ethereum_transactions_recent env chain).2 = Except.ok res ∧
        res.blocks_scanned = k) := by
  refine ⟨?_, ?_, ?_⟩
  · intro env h
    rw [nBlocksStr, h]
    decide
  · intro env chain h
    simp [ethereum_transactions_recent, h]
  · intro env chain u s k latest blks hu hs hk hlat hok
    have hn : parsePyInt (nBlocksStr env) = some k := by
      rw [nBlocksStr, hs]
      exact hk
    rw [run_success env chain u k latest blks hu hn hlat hok]
    exact ⟨_, rfl, rfl⟩

/-- Witness for amended claim C8: with ETH_TX_RECENT_BLOCKS set to 3 the
run reports blocks_scanned = 3. -/
theorem claim_C8_witness :
    ∃ res, (ethereum_transactions_recent threeEnv testChain).2 = Except.ok res ∧
      res.blocks_scanned = 3 :=
  claim_C8.2.2 threeEnv testChain "http://localhost:8545" "3" 3 5 testBlocks
    (by decide) (by decide) (by decide) rfl (fun b _ => rfl)

/-- Claim C9: for a non-positive block count N and any latest block L, the
run does not error: the computed start block exceeds L, zero blocks are
fetched, an empty batch is still written at the deterministic path, and the
summary reports blocks_scanned = N and num_transactions = 0. -/
theorem claim_C9 (env : Env) (chain : Chain) (u : String) (n : Int) (latest : Nat)
    (hurl : env "ETHEREUM_RPC_URL" = some u)
    (hn : parsePyInt (nBlocksStr env) = some n)
    (hneg : n ≤ 0)
    (hlat : chain.blockNumber = Except.ok latest) :
    blockRange latest n = [] ∧ latest < startBlock latest n ∧
    ethereum_transactions_recent env chain =
      ([Event.rpcBlockNumber, Event.mkdir "data/ethereum/transactions",
        Event.fileWrite (outPath latest) []],
       Except.ok
         { blocks_scanned := n
           latest_block := latest
           num_transactions := 0
           preview := []
           file := outPath latest }) := by
  have hnil := blockRange_eq_nil latest n hneg
  refine ⟨hnil, ?_, ?_⟩
  · simp only [startBlock]
    omega
  · have hok : ∀ b ∈ blockRange latest n,
        chain.getBlock b = Except.ok ((fun _ => Block.mk 0 []) b) := by
      intro b hb
      rw [hnil] at hb
      cases hb
    rw [run_success env chain u n latest (fun _ => Block.mk 0 []) hurl hn hlat hok]
    simp [runRows, hnil]

/-- Witness for claim C9 at block count -2 against the 6-block chain. -/
theorem claim_C9_witness :
    blockRange 5 (-2) = [] ∧ 5 < startBlock 5 (-2) ∧
    ethereum_transactions_recent negEnv testChain =
      ([Event.rpcBlockNumber, Event.mkdir "data/ethereum/transactions",
        Event.fileWrite (outPath 5) []],
       Except.ok
         { blocks_scanned := -2
           latest_block := 5
           num_transactions := 0
           preview := []
           file := outPath 5 }) :=
  claim_C9 negEnv testChain "http://localhost:8545" (-2) 5
    (by decide) (by decide) (by decide) rfl

/-- Claim C10: every written record's block_number lies between start_block
and latest_block; records sharing a block_number carry the identical
block_timestamp, namely the ISO-8601 UTC conversion of that block's unix
timestamp; and equal block numbers are contiguous in the batch (any record
between two records of the same block number has that block number). -/
theorem claim_C10 (env : Env) (chain : Chain) (u : String) (n : Int) (latest : Nat)
    (blks : Nat → Block)
    (hurl : env "ETHEREUM_RPC_URL" = some u)
    (hn : parsePyInt (nBlocksStr env) = some n)
    (hlat : chain.blockNumber = Except.ok latest)
    (hok : ∀ b ∈ blockRange latest n, chain.getBlock b = Except.ok (blks b)) :
    Event.fileWrite (outPath latest) (runRows latest n blks) ∈
      (ethereum_transactions_recent env chain).1 ∧
    (∀ r ∈ runRows latest n blks,
        startBlock latest n ≤ r.block_number ∧ r.block_number ≤ latest ∧
        r.block_timestamp = tsIso ((blks r.block_number).timestamp)) ∧
    (∀ r ∈ runRows latest n blks, ∀ s ∈ runRows latest n blks,
        r.block_number = s.block_number → r.block_timestamp = s.block_timestamp) ∧
    (∀ i j k : Fin (runRows latest n blks).length, i ≤ j → j ≤ k →
        ((runRows latest n blks).get i).block_number =
          ((runRows latest n blks).get k).block_number →
        ((runRows latest n blks).get j).block_number =
          ((runRows latest n blks).get i).block_number) := by
  have hmem : ∀ r ∈ runRows latest n blks,
      startBlock latest n ≤ r.block_number ∧ r.block_number ≤ latest ∧
      r.block_timestamp = tsIso ((blks r.block_number).timestamp) := by
    intro r hr
    rw [mem_runRows] at hr
    obtain ⟨b, hb, hrb⟩ := hr
    obtain ⟨hbn, hts, -⟩ := mem_blockRows _ _ _ hrb
    obtain ⟨h1, h2⟩ := mem_blockRange latest n b hb
    exact ⟨by rw [hbn]; exact h1, by rw [hbn]; exact h2, by rw [hbn]; exact hts⟩
  refine ⟨by rw [run_success env chain u n latest blks hurl hn hlat hok]; simp, hmem, ?_, ?_⟩
  · intro r hr s hs hbs
    rw [(hmem r hr).2.2, (hmem s hs).2.2, hbs]
  · have hle := runRows_block_le latest n blks
    rw [List.pairwise_iff_get] at hle
    intro i j k hij hjk hik
    rcases lt_or_eq_of_le hij with hlt | he
    · rcases lt_or_eq_of_le hjk with hlt2 | he2
      · have a1 := hle i j hlt
        have a2 := hle j k hlt2
        omega
      · rw [he2]
        exact hik.symm
    · rw [← he]

/-- Witness for claim C10 at the concrete 6-block chain. -/
theorem claim_C10_witness :
    Event.fileWrite (outPath 5) (runRows 5 10 testBlocks) ∈
      (ethereum_transactions_recent testEnv testChain).1 ∧
    (∀ r ∈ runRows 5 10 testBlocks,
        startBlock 5 10 ≤ r.block_number ∧ r.block_number ≤ 5 ∧
        r.block_timestamp = tsIso ((testBlocks r.block_number).timestamp)) ∧
    (∀ r ∈ runRows 5 10 testBlocks, ∀ s ∈ runRows 5 10 testBlocks,
        r.block_number = s.block_number → r.block_timestamp = s.block_timestamp) ∧
    (∀ i j k : Fin (runRows 5 10 testBlocks).length, i ≤ j → j ≤ k →
        ((runRows 5 10 testBlocks).get i).block_number =
          ((runRows 5 10 testBlocks).get k).block_number →
        ((runRows 5 10 testBlocks).get j).block_number =
          ((runRows 5 10 testBlocks).get i).block_number) :=
  claim_C10 testEnv testChain "http://localhost:8545" 10 5 testBlocks
    (by decide) (by decide) rfl (fun b _ => rfl)

end OnchainPipeline
